import Mathlib

/-!
Verification development for the `builder-playground` artifact assembly
pipeline (`internal/artifacts.go`, `main.go`).

The Go code is shallowly embedded: JSON documents become an inductive
`Json` type whose objects are association lists with unique keys (Go's
`map[string]interface{}` decoded from JSON always has unique keys);
external primitives (block hashing, keystore encryption, UUID
generation, serializers, the filesystem) become explicit function
parameters; Go `uint64` values that cannot overflow on the modelled
paths become `Nat`.
-/

namespace BuilderPlayground

/-- Embedding of a decoded Go JSON value (`interface{}` produced by
`encoding/json.Unmarshal`): null, bool, number, string, array, or
object. Objects are association lists of key/value pairs. -/
inductive Json where
  | null : Json
  | bool (b : Bool) : Json
  | num (n : Int) : Json
  | str (s : String) : Json
  | arr (elems : List Json) : Json
  | obj (fields : List (String × Json)) : Json

/-- A decoded JSON object body, i.e. Go's `map[string]interface{}`. -/
abbrev JObj := List (String × Json)

/-- Map read `m[k]`: first binding of the key in the association list. -/
def lookupKey {α : Type} : List (String × α) → String → Option α
  | [], _ => none
  | (k, v) :: rest, q => if k = q then some v else lookupKey rest q

/-- Map write `m[k] = v`: replace the first binding of the key in
place, or append a fresh binding when the key is absent. -/
def setKey {α : Type} : List (String × α) → String → α → List (String × α)
  | [], k, v => [(k, v)]
  | (k0, v0) :: rest, k, v =>
      if k0 = k then (k, v) :: rest else (k0, v0) :: setKey rest k v

/-- Function `mergeMap` from `artifacts.go`: recursively merges `src` into
`dst`. For each key of `src`, when the existing value and the incoming
value are both objects they are merged recursively; in every other case
the incoming value replaces the existing one. -/
def mergeMap : JObj → JObj → JObj
  | dst, [] => dst
  | dst, (k, srcVal) :: rest =>
      match lookupKey dst k, srcVal with
      | some (Json.obj dstMap), Json.obj srcMap =>
          mergeMap (setKey dst k (Json.obj (mergeMap dstMap srcMap))) rest
      | _, sv => mergeMap (setKey dst k sv) rest
termination_by _ src => sizeOf src

/-- The effect of `mergeMap` on a single source entry: recursive merge
when both sides are objects, plain store otherwise. -/
def mergeStep (dst : JObj) (k : String) (sv : Json) : JObj :=
  match lookupKey dst k, sv with
  | some (Json.obj dstMap), Json.obj srcMap =>
      setKey dst k (Json.obj (mergeMap dstMap srcMap))
  | _, sv2 => setKey dst k sv2

/-- Outcome of a call to `overrideJSON`: a returned document, the
error return taken when `json.Unmarshal` rejects the original bytes, or
a runtime panic. -/
inductive OverrideResult where
  | ok (doc : Json) : OverrideResult
  | err : OverrideResult
  | panicked : OverrideResult

/-- Function `overrideJSON` from `artifacts.go`, over the parse result
of the original bytes: `none` stands for bytes `json.Unmarshal` rejects
for a `map[string]interface{}` target (invalid JSON, or valid JSON
whose top level is an array, string, number or bool). A top-level JSON
object unmarshals into the populated map, the overrides are merged in
with `mergeMap`, and the merged document is returned (re-serialization
of decoded JSON values cannot fail). Top-level JSON `null` unmarshals
without error into a nil map: with no overrides the loop body of
`mergeMap` never runs and the nil map re-serializes to `null`, but any
override entry reaches the assignment `dst[key] = srcVal` on the nil
map, which panics at runtime. -/
def overrideJSON (parsed : Option Json) (overrides : JObj) : OverrideResult :=
  match parsed with
  | some (Json.obj original) => OverrideResult.ok (Json.obj (mergeMap original overrides))
  | some Json.null =>
      match overrides with
      | [] => OverrideResult.ok Json.null
      | _ :: _ => OverrideResult.panicked
  | _ => OverrideResult.err

/-- Path lookup through nested JSON objects. -/
def getPath : Json → List String → Option Json
  | j, [] => some j
  | Json.obj fields, k :: rest =>
      match lookupKey fields k with
      | some v => getPath v rest
      | none => none
  | _, _ :: _ => none

/-- Constant `MinimumGenesisDelay` from `artifacts.go` (seconds). -/
def MinimumGenesisDelay : Nat := 10

/-- The `ArtifactsBuilder` struct. -/
structure ArtifactsBuilder where
  outputDir : String
  applyLatestL1Fork : Bool
  genesisDelay : Nat
deriving DecidableEq

/-- Constructor `NewArtifactsBuilder` from `artifacts.go`. -/
def NewArtifactsBuilder : ArtifactsBuilder :=
  { outputDir := "", applyLatestL1Fork := false, genesisDelay := MinimumGenesisDelay }

/-- The `OutputDir` builder method. -/
def ArtifactsBuilder.OutputDir (b : ArtifactsBuilder) (outputDir : String) : ArtifactsBuilder :=
  { b with outputDir := outputDir }

/-- The `ApplyLatestL1Fork` builder method. -/
def ArtifactsBuilder.ApplyLatestL1Fork (b : ArtifactsBuilder) (v : Bool) : ArtifactsBuilder :=
  { b with applyLatestL1Fork := v }

/-- The `GenesisDelay` builder method: stores the given delay without
any check against `MinimumGenesisDelay`. -/
def ArtifactsBuilder.GenesisDelay (b : ArtifactsBuilder) (genesisDelaySeconds : Nat) :
    ArtifactsBuilder :=
  { b with genesisDelay := genesisDelaySeconds }

/-- The clamp `Build` applies to the receiver before computing the
genesis time: a delay below `MinimumGenesisDelay` is replaced by
`MinimumGenesisDelay`, any other delay is kept. -/
def buildClampDelay (b : ArtifactsBuilder) : ArtifactsBuilder :=
  if b.genesisDelay < MinimumGenesisDelay then
    { b with genesisDelay := MinimumGenesisDelay }
  else
    b

/-- Computation `genesisTime := uint64(time.Now().Add(delay).Unix())`
as computed by `Build` after the clamp. -/
def buildGenesisTime (now : Nat) (b : ArtifactsBuilder) : Nat :=
  now + (buildClampDelay b).genesisDelay

/-- A `types.Account` entry of the execution genesis allocation,
restricted to the fields the prefunding loop sets (balance, nonce). -/
structure GoAccount where
  balance : Nat
  nonce : Nat
deriving DecidableEq

/-- Value of `new(big.Int).SetString("10000000000000000000000", 16)`: the digit
string is parsed in base 16, so the prefunded balance is `16 ^ 22`. -/
def prefundedBalance : Nat := 0x10000000000000000000000

/-- List `prefundedAccounts` from `artifacts.go`: the ten private keys. -/
def prefundedAccounts : List String :=
  ["0xac0974bec39a17e36ba4a6b4d238ff944bacb478cbed5efcae784d7bf4f2ff80",
   "0x59c6995e998f97a5a0044966f0945389dc9e86dae88c7a8412f4603b6b78690d",
   "0x5de4111afa1a4b94908f83103eb1f1706367c2e68ca870fc3fb9a804cdab365a",
   "0x7c852118294e51e653712a81e05800f419141751be58f605c371e15141b007a6",
   "0x47e179ec197488593b187f80a00eb0da91f1b9d0b13f8733639f19c30a34926a",
   "0x8b3a350cf5c34c9194ca85829a2df0ec3153be0318b5e2d3348e872092edffba",
   "0x92db14e403b83dfe3df233f83dfa3a0d7096f21ca9b0d6d6b8d88b2b4ec1564e",
   "0x4bbbf85ce3377467afe5d46f804f221813b2bb87f24d81f60f1fcdbf7cbf4356",
   "0xdbda1821b80551c9d65939329250298aa3472ba22feea921c0cf5d620ea67b97",
   "0x2a871d0798f97d79848a013d4936a73bf4cc922c825d33c1cf7073dff6d409c6"]

/-- The prefunding loop of `Build`: for each private key, derive its
address (`getPrivKey` / `PubkeyToAddress`, an external primitive given
here as `addrOf`) and store a fixed account with `prefundedBalance` and
nonce 1 into the allocation map. -/
def applyPrefunded (addrOf : String → String) (alloc : List (String × GoAccount)) :
    List (String × GoAccount) :=
  prefundedAccounts.foldl
    (fun acc privStr => setKey acc (addrOf privStr) ⟨prefundedBalance, 1⟩) alloc

/-- The Optimism pre-state loop of `Build`: every account of the
decoded external L1 state dump is stored into the allocation map,
overwriting whatever was there. -/
def applyL1StateDump (alloc dump : List (String × GoAccount)) : List (String × GoAccount) :=
  dump.foldl (fun acc entry => setKey acc entry.1 entry.2) alloc

/-- The execution-genesis allocation as assembled by `Build`: the
allocation produced by `GethTestnetGenesis` (`initial`), then the
prefunded accounts, then the decoded external L1 state dump on top. -/
def buildAlloc (addrOf : String → String) (initial dump : List (String × GoAccount)) :
    List (String × GoAccount) :=
  applyL1StateDump (applyPrefunded addrOf initial) dump

/-- Encoding `hexutil.Uint64(n).String()`: `0x` followed by the minimal
lowercase base-16 digits of `n`. -/
def hexU64 (n : Nat) : String := "0x" ++ String.mk (Nat.toDigits 16 n)

/-- The fixed `chain_op_config` override written into `rollup.json`. -/
def chainOpConfigOverride : JObj :=
  [("eip1559Elasticity", Json.num 6),
   ("eip1559Denominator", Json.num 50),
   ("eip1559DenominatorCanyon", Json.num 250)]

/-- The override document `Build` applies to the embedded
`rollup.json` template: the L2 start time (a plain number, not hex),
the L1 genesis hash and height 0, the recomputed L2 genesis hash and
height 0, and the fixed fee-market constants. -/
def rollupOverride (opTimestamp : Nat) (l1HashStr l2HashStr : String) : JObj :=
  [("genesis", Json.obj
      [("l2_time", Json.num opTimestamp),
       ("l1", Json.obj [("hash", Json.str l1HashStr), ("number", Json.num 0)]),
       ("l2", Json.obj [("hash", Json.str l2HashStr), ("number", Json.num 0)])]),
   ("chain_op_config", Json.obj chainOpConfigOverride)]

/-- The L2 block of `Build` (lines 238-286): compute
`opTimestamp = genesisTime + 2`, patch the embedded L2 genesis
template's timestamp with `overrideJSON`, recompute the genesis hash of
the patched document (`core.Genesis.ToBlock().Hash()`, an external
primitive given here as `hashOfGenesis`, returning the hash's string
form), and patch the embedded rollup template with the timestamp and
the two hashes. Returns the pair written to `l2-genesis.json` and
`rollup.json`; a non-ok `overrideJSON` outcome aborts the build
(`none`). -/
def buildL2Artifacts (genesisTime : Nat) (opGenesis opRollupConfig : Option Json)
    (hashOfGenesis : Json → String) (l1HashStr : String) : Option (Json × Json) :=
  let opTimestamp := genesisTime + 2
  match overrideJSON opGenesis [("timestamp", Json.str (hexU64 opTimestamp))] with
  | OverrideResult.ok newOpGenesis =>
      match overrideJSON opRollupConfig
          (rollupOverride opTimestamp l1HashStr (hashOfGenesis newOpGenesis)) with
      | OverrideResult.ok newOpRollup => some (newOpGenesis, newOpRollup)
      | _ => none
  | _ => none

/-- The timestamp-patched L2 genesis document: `newOpGenesis` as
produced inside `Build` from a template whose top level is the object
`gm`. -/
def patchedOpGenesis (genesisTime : Nat) (gm : JObj) : Json :=
  Json.obj (mergeMap gm [("timestamp", Json.str (hexU64 (genesisTime + 2)))])

/-- The patched rollup configuration: `newOpRollup` as produced inside
`Build` from a rollup template whose top level is the object `rm` and
an L2 genesis template whose top level is the object `gm`. -/
def patchedRollup (genesisTime : Nat) (rm : JObj) (hashOfGenesis : Json → String)
    (l1HashStr : String) (gm : JObj) : Json :=
  Json.obj (mergeMap rm (rollupOverride (genesisTime + 2) l1HashStr
    (hashOfGenesis (patchedOpGenesis genesisTime gm))))

/-- A sample block-hash primitive used to instantiate the external
`ToBlock().Hash()` parameter on concrete inputs: it reads the
document's string timestamp, so it is timestamp-sensitive. -/
def witnessHashFn : Json → String :=
  fun j =>
    match j with
    | Json.obj m =>
        match lookupKey m "timestamp" with
        | some (Json.str s) => s
        | _ => ""
    | _ => ""

/-- Scan the reversed character list of a path for its extension: stop
empty at a path separator or at the start, otherwise collect characters
until the final dot and return the dot with the collected suffix. -/
def fileExtScan (acc : List Char) : List Char → List Char
  | [] => []
  | c :: rest =>
      if c = '/' then []
      else if c = '.' then c :: acc
      else fileExtScan (c :: acc) rest

/-- Embedding of `filepath.Ext`: the suffix of the final path element starting at
its final dot, empty when that element has no dot. -/
def fileExt (s : String) : String := String.mk (fileExtScan [] s.data.reverse)

/-- Embedding of `filepath.Join(root, rel)` for the clean relative paths used by the
pipeline. -/
def joinPath (root rel : String) : String :=
  if root = "" then rel else root ++ "/" ++ rel

/-- The runtime representations `output.WriteFile` dispatches on, in
the source's priority order: `[]byte`, `string`, an `sszObject` (its
`MarshalSSZ` outcome), an `encObject` (its `Encode` outcome as a
function of the sub-writer's root path), a deferred
`func() ([]byte, error)` (its outcome), and any other value (serialized
by extension). Failing external outcomes are `none` / `Except.error`. -/
inductive Artifact where
  | bytes (content : String)
  | text (content : String)
  | sszObj (marshalled : Option String)
  | encObj (encode : String → Except String (List (String × String)))
  | encFn (result : Option String)
  | value (v : Json)

/-- Method `output.WriteFile`: join the destination under the root, dispatch
on the artifact's representation, and for plain values infer the format
from the file extension (`.json` indented JSON, `.yaml` YAML, anything
else an unsupported-extension error). The result is the list of
(path, content) writes performed, or the error that aborted the write
before anything was written. The serializers `json.MarshalIndent` and
`yaml.Marshal` are external primitives passed as functions. -/
def writeFile (jsonMarshalIndent yamlMarshal : Json → String)
    (root dst0 : String) (data : Artifact) : Except String (List (String × String)) :=
  let dst := joinPath root dst0
  match data with
  | Artifact.bytes raw => Except.ok [(dst, raw)]
  | Artifact.text s => Except.ok [(dst, s)]
  | Artifact.sszObj m =>
      match m with
      | some raw => Except.ok [(dst, raw)]
      | none => Except.error "ssz marshal failed"
  | Artifact.encObj enc => enc dst
  | Artifact.encFn r =>
      match r with
      | some raw => Except.ok [(dst, raw)]
      | none => Except.error "deferred encoding failed"
  | Artifact.value v =>
      if fileExt dst = ".json" then Except.ok [(dst, jsonMarshalIndent v)]
      else if fileExt dst = ".yaml" then Except.ok [(dst, yamlMarshal v)]
      else Except.error ("unsupported file extension: " ++ fileExt dst)

/-- The fixed keystore password `secret` from `artifacts.go`. -/
def keystoreSecret : String := "secret"

/-- Content of one written file: a marshalled JSON document or text. -/
inductive FileContent where
  | jsonDoc (doc : Json)
  | text (s : String)

/-- External primitives consumed by `lighthouseKeystore.Encode`, as
functions of the key: the keystorev4 encryption of the key's secret
(`cryptoFields`), the generated random identifier, and the hex encoding
of the key's marshalled public key (without the `0x` tag). -/
structure KeystoreParams where
  cryptoOf : String → Json
  uuidOf : String → String
  pubHexOf : String → String

/-- The keystore document assembled per key: crypto fields, the
generated identifier under the key `uuid`, the public key hex without
its leading `0x`, version 4, and an empty description. -/
def keystoreItem (cryptoFields : Json) (id pubHex : String) : JObj :=
  [("crypto", cryptoFields),
   ("uuid", Json.str id),
   ("pubkey", Json.str pubHex),
   ("version", Json.num 4),
   ("description", Json.str "")]

/-- The write batch `lighthouseKeystore.Encode` performs for one key:
`validators/<0xpubkey>/voting-keystore.json` holding the keystore
document and `secrets/<0xpubkey>` holding the plaintext password. -/
def encodeOneKey (p : KeystoreParams) (key : String) : List (String × FileContent) :=
  [("validators/" ++ ("0x" ++ p.pubHexOf key) ++ "/voting-keystore.json",
      FileContent.jsonDoc
        (Json.obj (keystoreItem (p.cryptoOf key) (p.uuidOf key) (p.pubHexOf key)))),
   ("secrets/" ++ ("0x" ++ p.pubHexOf key), FileContent.text keystoreSecret)]

/-- Method `lighthouseKeystore.Encode`: the write batches of all keys, in
order. -/
def lighthouseKeystoreEncode (p : KeystoreParams) (privKeys : List String) :
    List (String × FileContent) :=
  privKeys.foldr (fun key acc => encodeOneKey p key ++ acc) []

/-- The `output` struct fields relevant to path resolution. -/
structure OutputState where
  dst : String
  homeDir : String
deriving DecidableEq

/-- Method `output.Exists`: stats `filepath.Join(o.dst)` — the root
destination directory alone — with the `path` argument unused. The
filesystem is the external predicate `stat`, true on paths whose
`os.Stat` succeeds. -/
def outputExists (stat : String → Bool) (o : OutputState) (_path : String) : Bool :=
  stat o.dst

example : mergeMap [("a", Json.obj [("b", Json.num 0), ("c", Json.num 2)])]
    [("a", Json.obj [("b", Json.num 1)])]
    = [("a", Json.obj [("b", Json.num 1), ("c", Json.num 2)])] := by
  simp [mergeMap, lookupKey, setKey]

theorem mergeMap_nil (dst : JObj) : mergeMap dst [] = dst := by
  simp [mergeMap]

theorem mergeMap_cons (dst : JObj) (k : String) (sv : Json) (rest : JObj) :
    mergeMap dst ((k, sv) :: rest) = mergeMap (mergeStep dst k sv) rest := by
  rcases hdk : lookupKey dst k with _ | dv
  · cases sv <;> simp [mergeMap, mergeStep, hdk]
  · cases dv <;> cases sv <;> simp [mergeMap, mergeStep, hdk]

theorem lookupKey_setKey_self {α : Type} (m : List (String × α)) (k : String) (v : α) :
    lookupKey (setKey m k v) k = some v := by
  induction m with
  | nil => simp [setKey, lookupKey]
  | cons hd rest ih =>
    obtain ⟨k0, v0⟩ := hd
    by_cases h : k0 = k <;> simp [setKey, lookupKey, h, ih]

theorem lookupKey_setKey_ne {α : Type} (m : List (String × α)) (k q : String) (v : α)
    (h : k ≠ q) : lookupKey (setKey m k v) q = lookupKey m q := by
  induction m with
  | nil => simp [setKey, lookupKey, h]
  | cons hd rest ih =>
    obtain ⟨k0, v0⟩ := hd
    by_cases h0 : k0 = k
    · subst h0; simp [setKey, lookupKey, h]
    · simp [setKey, lookupKey, h0, ih]

theorem lookupKey_eq_none_of_not_mem {α : Type} (m : List (String × α)) (q : String)
    (h : q ∉ m.map Prod.fst) : lookupKey m q = none := by
  induction m with
  | nil => simp [lookupKey]
  | cons hd rest ih =>
    obtain ⟨k0, v0⟩ := hd
    simp only [List.map_cons, List.mem_cons, not_or] at h
    have hne : k0 ≠ q := fun hc => h.1 hc.symm
    simp [lookupKey, hne, ih h.2]

theorem lookupKey_mergeStep_self (dst : JObj) (k : String) (sv : Json) :
    lookupKey (mergeStep dst k sv) k =
      match lookupKey dst k, sv with
      | some (Json.obj dstMap), Json.obj srcMap =>
          some (Json.obj (mergeMap dstMap srcMap))
      | _, sv2 => some sv2 := by
  rcases hdk : lookupKey dst k with _ | dv
  · cases sv <;> simp [mergeStep, hdk, lookupKey_setKey_self]
  · cases dv <;> cases sv <;> simp [mergeStep, hdk, lookupKey_setKey_self]

theorem lookupKey_mergeStep_ne (dst : JObj) (k : String) (sv : Json) (q : String)
    (h : k ≠ q) : lookupKey (mergeStep dst k sv) q = lookupKey dst q := by
  rcases hdk : lookupKey dst k with _ | dv
  · cases sv <;> simp [mergeStep, hdk, lookupKey_setKey_ne _ _ _ _ h]
  · cases dv <;> cases sv <;> simp [mergeStep, hdk, lookupKey_setKey_ne _ _ _ _ h]

/-- Per-key characterization of `mergeMap` (source keys unique, as Go
map iteration guarantees): an incoming object merges recursively into
an existing object, any other incoming value replaces the existing one,
and keys absent from the source are untouched. -/
theorem lookupKey_mergeMap (src : JObj) : ∀ (dst : JObj) (q : String),
    (src.map Prod.fst).Nodup →
    lookupKey (mergeMap dst src) q =
      match lookupKey src q, lookupKey dst q with
      | some (Json.obj srcMap), some (Json.obj dstMap) =>
          some (Json.obj (mergeMap dstMap srcMap))
      | some sv, _ => some sv
      | none, dv => dv := by
  induction src with
  | nil =>
    intro dst q _
    simp only [mergeMap_nil, lookupKey]
  | cons hd rest ih =>
    obtain ⟨k, sv⟩ := hd
    intro dst q h
    simp only [List.map_cons, List.nodup_cons] at h
    obtain ⟨hk, hrest⟩ := h
    rw [mergeMap_cons, ih (mergeStep dst k sv) q hrest]
    by_cases hq : k = q
    · subst hq
      have hr : lookupKey rest k = none := lookupKey_eq_none_of_not_mem rest k hk
      have hms := lookupKey_mergeStep_self dst k sv
      rcases hdk : lookupKey dst k with _ | dv
      · rw [hdk] at hms
        cases sv <;> simp [lookupKey, hr, hms, hdk]
      · rw [hdk] at hms
        cases dv <;> cases sv <;> simp [lookupKey, hr, hms, hdk]
    · rw [lookupKey_mergeStep_ne dst k sv q hq]
      simp [lookupKey, hq]

/-- C10: `output.Exists` only stats the root destination directory and
ignores its path argument entirely, so `Exists(p) = Exists("")` for
every `p` and it never reports on a file or subdirectory under the
root. -/
theorem outputExists_ignores_path (stat : String → Bool) (o : OutputState) (p : String) :
    outputExists stat o p = outputExists stat o "" := rfl

/-- C4: the effective genesis delay used by `Build` is
`MinimumGenesisDelay` when the configured delay is below it, and the
configured delay itself otherwise. -/
theorem buildClampDelay_effective (b : ArtifactsBuilder) :
    (b.genesisDelay < MinimumGenesisDelay →
      (buildClampDelay b).genesisDelay = MinimumGenesisDelay) ∧
    (MinimumGenesisDelay ≤ b.genesisDelay →
      (buildClampDelay b).genesisDelay = b.genesisDelay) := by
  refine ⟨fun h => ?_, fun h => ?_⟩
  · simp [buildClampDelay, h]
  · simp [buildClampDelay, Nat.not_lt.mpr h]

theorem buildClampDelay_effective_witness :
    (buildClampDelay (ArtifactsBuilder.GenesisDelay NewArtifactsBuilder 3)).genesisDelay
        = MinimumGenesisDelay ∧
    (buildClampDelay (ArtifactsBuilder.GenesisDelay NewArtifactsBuilder 42)).genesisDelay
        = 42 :=
  ⟨(buildClampDelay_effective (ArtifactsBuilder.GenesisDelay NewArtifactsBuilder 3)).1
      (by decide),
   (buildClampDelay_effective (ArtifactsBuilder.GenesisDelay NewArtifactsBuilder 42)).2
      (by decide)⟩

/-- C6 counterexample: the `GenesisDelay` builder method stores its
argument without any check, so setting a delay of 3 on a freshly
constructed builder leaves `genesisDelay < MinimumGenesisDelay`,
violating the claimed invariant. -/
theorem genesisDelay_invariant_broken_by_setter :
    ¬ MinimumGenesisDelay ≤
        (ArtifactsBuilder.GenesisDelay NewArtifactsBuilder 3).genesisDelay := by
  decide

/-- C6 (amended): `genesisDelay ≥ MinimumGenesisDelay` holds for the
builder `NewArtifactsBuilder` returns and is preserved by `OutputDir`
and `ApplyLatestL1Fork`; `Build` re-establishes it on any builder via
its clamp; but `GenesisDelay` stores its argument unchecked and can
break it. -/
theorem genesisDelay_invariant_amended :
    MinimumGenesisDelay ≤ NewArtifactsBuilder.genesisDelay ∧
    (∀ (b : ArtifactsBuilder) (s : String), MinimumGenesisDelay ≤ b.genesisDelay →
      MinimumGenesisDelay ≤ (b.OutputDir s).genesisDelay) ∧
    (∀ (b : ArtifactsBuilder) (v : Bool), MinimumGenesisDelay ≤ b.genesisDelay →
      MinimumGenesisDelay ≤ (b.ApplyLatestL1Fork v).genesisDelay) ∧
    (∀ b : ArtifactsBuilder, MinimumGenesisDelay ≤ (buildClampDelay b).genesisDelay) := by
  refine ⟨le_refl _, fun b s h => h, fun b v h => h, fun b => ?_⟩
  by_cases h : b.genesisDelay < MinimumGenesisDelay
  · simp [buildClampDelay, h]
  · simp only [buildClampDelay, if_neg h]
    omega

theorem genesisDelay_invariant_amended_witness :
    MinimumGenesisDelay ≤
        ((NewArtifactsBuilder.OutputDir "out").ApplyLatestL1Fork true).genesisDelay ∧
    MinimumGenesisDelay ≤
        (buildClampDelay (ArtifactsBuilder.GenesisDelay NewArtifactsBuilder 3)).genesisDelay :=
  ⟨genesisDelay_invariant_amended.2.2.1 (NewArtifactsBuilder.OutputDir "out") true
      (genesisDelay_invariant_amended.2.1 NewArtifactsBuilder "out"
        genesisDelay_invariant_amended.1),
   genesisDelay_invariant_amended.2.2.2 (ArtifactsBuilder.GenesisDelay NewArtifactsBuilder 3)⟩

/-- C7 counterexample: original bytes `null` are not a top-level JSON
object, yet `overrideJSON` with empty overrides returns the document
`null` and takes no error return — `json.Unmarshal` accepts top-level
JSON `null` for a map target by setting the map to nil — refuting the
claimed equivalence of errors with non-object input. -/
theorem overrideJSON_null_not_error :
    overrideJSON (some Json.null) [] = OverrideResult.ok Json.null ∧
    (∀ m : JObj, some Json.null ≠ some (Json.obj m)) :=
  ⟨rfl, fun _ h => Json.noConfusion (Option.some.inj h)⟩

/-- C7 (amended): `overrideJSON` returns an error exactly when the
original bytes parse as neither a top-level JSON object nor top-level
JSON `null` (invalid JSON, top-level array or scalar); on a top-level
object it returns the merged document without error; on top-level
`null` it returns the document `null` when the overrides map is empty
and panics at runtime (assignment into a nil map) otherwise. -/
theorem overrideJSON_error_characterization (parsed : Option Json) (overrides : JObj) :
    ((overrideJSON parsed overrides = OverrideResult.err) ↔
      ((∀ m : JObj, parsed ≠ some (Json.obj m)) ∧ parsed ≠ some Json.null)) ∧
    (∀ m : JObj, parsed = some (Json.obj m) →
      overrideJSON parsed overrides = OverrideResult.ok (Json.obj (mergeMap m overrides))) ∧
    (parsed = some Json.null → overrides = [] →
      overrideJSON parsed overrides = OverrideResult.ok Json.null) ∧
    (parsed = some Json.null → overrides ≠ [] →
      overrideJSON parsed overrides = OverrideResult.panicked) := by
  refine ⟨⟨fun h => ⟨fun m hm => ?_, fun hn => ?_⟩, fun h => ?_⟩,
    fun m hm => ?_, fun hn he => ?_, fun hn hne => ?_⟩
  · subst hm; simp [overrideJSON] at h
  · subst hn
    rcases overrides with _ | ⟨hd, tl⟩ <;> simp [overrideJSON] at h
  · obtain ⟨hobj, hnull⟩ := h
    rcases parsed with _ | j
    · rfl
    · cases j
      case obj m => exact absurd rfl (hobj m)
      case null => exact absurd rfl hnull
      all_goals rfl
  · subst hm; rfl
  · subst hn; subst he; rfl
  · subst hn
    rcases overrides with _ | ⟨hd, tl⟩
    · exact absurd rfl hne
    · rfl

theorem overrideJSON_error_characterization_witness :
    overrideJSON (some (Json.obj [("a", Json.num 1)])) [("b", Json.str "x")]
      = OverrideResult.ok (Json.obj (mergeMap [("a", Json.num 1)] [("b", Json.str "x")])) ∧
    overrideJSON (some Json.null) [("b", Json.str "x")] = OverrideResult.panicked :=
  ⟨(overrideJSON_error_characterization (some (Json.obj [("a", Json.num 1)]))
      [("b", Json.str "x")]).2.1 [("a", Json.num 1)] rfl,
   (overrideJSON_error_characterization (some Json.null)
      [("b", Json.str "x")]).2.2.2 rfl (by simp)⟩

/-- C9: overriding a top-level JSON object with the empty overrides map
is the identity transform on the document: the returned document is the
original object unchanged. -/
theorem overrideJSON_empty_identity (parsed : Option Json) (m : JObj)
    (h : parsed = some (Json.obj m)) :
    overrideJSON parsed [] = OverrideResult.ok (Json.obj m) := by
  subst h
  simp [overrideJSON, mergeMap_nil]

theorem overrideJSON_empty_identity_witness :
    overrideJSON (some (Json.obj [("a", Json.num 1), ("b", Json.str "x")])) []
      = OverrideResult.ok (Json.obj [("a", Json.num 1), ("b", Json.str "x")]) :=
  overrideJSON_empty_identity (some (Json.obj [("a", Json.num 1), ("b", Json.str "x")]))
    [("a", Json.num 1), ("b", Json.str "x")] rfl

/-- C2: `mergeMap` merges `src` into `dst` key by key — an incoming
object merges recursively into an existing object, any other incoming
value replaces the existing one outright, keys of `dst` absent from
`src` are unchanged — and in particular patching
`a: (b: 0, c: 2)` with `a: (b: 1)` yields `a: (b: 1, c: 2)`. -/
theorem mergeMap_key_by_key (dst src : JObj) (q : String)
    (h : (src.map Prod.fst).Nodup) :
    (lookupKey (mergeMap dst src) q =
      match lookupKey src q, lookupKey dst q with
      | some (Json.obj srcMap), some (Json.obj dstMap) =>
          some (Json.obj (mergeMap dstMap srcMap))
      | some sv, _ => some sv
      | none, dv => dv) ∧
    mergeMap [("a", Json.obj [("b", Json.num 0), ("c", Json.num 2)])]
        [("a", Json.obj [("b", Json.num 1)])]
      = [("a", Json.obj [("b", Json.num 1), ("c", Json.num 2)])] := by
  refine ⟨lookupKey_mergeMap src dst q h, ?_⟩
  simp [mergeMap, lookupKey, setKey]

theorem mergeMap_key_by_key_witness :
    lookupKey (mergeMap [("x", Json.num 0)] [("x", Json.num 7)]) "x"
      = some (Json.num 7) := by
  have h := (mergeMap_key_by_key [("x", Json.num 0)] [("x", Json.num 7)] "x" (by simp)).1
  rw [h]
  simp [lookupKey]

theorem lookupKey_applyL1StateDump (dump : List (String × GoAccount)) :
    ∀ (alloc : List (String × GoAccount)) (q : String), (dump.map Prod.fst).Nodup →
    lookupKey (applyL1StateDump alloc dump) q =
      match lookupKey dump q with
      | some a => some a
      | none => lookupKey alloc q := by
  induction dump with
  | nil =>
    intro alloc q _
    simp [applyL1StateDump, lookupKey]
  | cons hd rest ih =>
    obtain ⟨k, a⟩ := hd
    intro alloc q h
    simp only [List.map_cons, List.nodup_cons] at h
    obtain ⟨hk, hrest⟩ := h
    have hstep : applyL1StateDump alloc ((k, a) :: rest)
        = applyL1StateDump (setKey alloc k a) rest := rfl
    rw [hstep, ih (setKey alloc k a) q hrest]
    by_cases hq : k = q
    · subst hq
      rw [lookupKey_eq_none_of_not_mem rest k hk]
      simp [lookupKey, lookupKey_setKey_self]
    · simp [lookupKey, hq, lookupKey_setKey_ne _ _ _ _ hq]

theorem lookupKey_foldl_setKey_const {α : Type} (v : α) (f : String → String) :
    ∀ (l : List String) (m : List (String × α)) (q : String),
    lookupKey (l.foldl (fun acc s => setKey acc (f s) v) m) q =
      if q ∈ l.map f then some v else lookupKey m q := by
  intro l
  induction l with
  | nil => intro m q; simp
  | cons hd rest ih =>
    intro m q
    rw [List.foldl_cons, ih (setKey m (f hd) v) q]
    by_cases hmem : q ∈ rest.map f
    · simp [hmem]
    · by_cases hq : f hd = q
      · simp [hmem, hq, lookupKey_setKey_self]
      · have : ¬ q = f hd := fun hc => hq hc.symm
        simp [hmem, this, lookupKey_setKey_ne _ _ _ _ hq]

/-- C3: in `Build`'s execution-genesis allocation, an address present
in both the prefunded set and the decoded external L1 state dump ends
up with the dump's entry; a prefunded address absent from the dump
keeps the fixed prefunded balance and nonce 1. -/
theorem buildAlloc_dump_wins (addrOf : String → String)
    (initial dump : List (String × GoAccount)) (addr : String)
    (hdump : (dump.map Prod.fst).Nodup)
    (hpre : addr ∈ prefundedAccounts.map addrOf) :
    (∀ a : GoAccount, lookupKey dump addr = some a →
      lookupKey (buildAlloc addrOf initial dump) addr = some a) ∧
    (lookupKey dump addr = none →
      lookupKey (buildAlloc addrOf initial dump) addr
        = some { balance := prefundedBalance, nonce := 1 }) := by
  constructor
  · intro a ha
    rw [buildAlloc, lookupKey_applyL1StateDump dump _ addr hdump, ha]
  · intro ha
    rw [buildAlloc, lookupKey_applyL1StateDump dump _ addr hdump, ha]
    simp only []
    rw [applyPrefunded, lookupKey_foldl_setKey_const]
    simp [hpre]

theorem buildAlloc_dump_wins_witness :
    lookupKey
        (buildAlloc (fun s => s) []
          [("0xac0974bec39a17e36ba4a6b4d238ff944bacb478cbed5efcae784d7bf4f2ff80",
            { balance := 5, nonce := 7 })])
        "0xac0974bec39a17e36ba4a6b4d238ff944bacb478cbed5efcae784d7bf4f2ff80"
      = some { balance := 5, nonce := 7 } ∧
    lookupKey (buildAlloc (fun s => s) [] [])
        "0x59c6995e998f97a5a0044966f0945389dc9e86dae88c7a8412f4603b6b78690d"
      = some { balance := prefundedBalance, nonce := 1 } :=
  ⟨(buildAlloc_dump_wins (fun s => s) []
      [("0xac0974bec39a17e36ba4a6b4d238ff944bacb478cbed5efcae784d7bf4f2ff80",
        { balance := 5, nonce := 7 })]
      "0xac0974bec39a17e36ba4a6b4d238ff944bacb478cbed5efcae784d7bf4f2ff80"
      (by simp) (by simp [prefundedAccounts])).1
      { balance := 5, nonce := 7 } (by simp [lookupKey]),
   (buildAlloc_dump_wins (fun s => s) [] []
      "0x59c6995e998f97a5a0044966f0945389dc9e86dae88c7a8412f4603b6b78690d"
      (by simp) (by simp [prefundedAccounts])).2 rfl⟩

/-- C8: for a plain value (none of the byte / text / SSZ / nested
encoder / deferred-function representations), `WriteFile` dispatches on
the destination extension: `.json` succeeds with the indented JSON
serialization, `.yaml` succeeds with the YAML serialization, and any
other extension fails with an unsupported-extension error and performs
no write. -/
theorem writeFile_extension_dispatch (jsonMarshalIndent yamlMarshal : Json → String)
    (root dst0 : String) (v : Json) :
    (fileExt (joinPath root dst0) = ".json" →
      writeFile jsonMarshalIndent yamlMarshal root dst0 (Artifact.value v)
        = Except.ok [(joinPath root dst0, jsonMarshalIndent v)]) ∧
    (fileExt (joinPath root dst0) = ".yaml" →
      writeFile jsonMarshalIndent yamlMarshal root dst0 (Artifact.value v)
        = Except.ok [(joinPath root dst0, yamlMarshal v)]) ∧
    (fileExt (joinPath root dst0) ≠ ".json" → fileExt (joinPath root dst0) ≠ ".yaml" →
      writeFile jsonMarshalIndent yamlMarshal root dst0 (Artifact.value v)
        = Except.error ("unsupported file extension: " ++ fileExt (joinPath root dst0))) := by
  refine ⟨fun h => ?_, fun h => ?_, fun h1 h2 => ?_⟩
  · simp [writeFile, h]
  · simp [writeFile, h]
  · simp [writeFile, h1, h2]

theorem writeFile_extension_dispatch_witness :
    writeFile (fun _ => "INDENTED-JSON") (fun _ => "YAML") "" "foo.json"
        (Artifact.value (Json.obj [("a", Json.num 1)]))
      = Except.ok [("foo.json", "INDENTED-JSON")] ∧
    writeFile (fun _ => "INDENTED-JSON") (fun _ => "YAML") "" "foo.yaml"
        (Artifact.value (Json.obj [("a", Json.num 1)]))
      = Except.ok [("foo.yaml", "YAML")] ∧
    writeFile (fun _ => "INDENTED-JSON") (fun _ => "YAML") "" "foo.txt"
        (Artifact.value (Json.obj [("a", Json.num 1)]))
      = Except.error "unsupported file extension: .txt" :=
  ⟨(writeFile_extension_dispatch (fun _ => "INDENTED-JSON") (fun _ => "YAML") ""
      "foo.json" (Json.obj [("a", Json.num 1)])).1 (by decide),
   (writeFile_extension_dispatch (fun _ => "INDENTED-JSON") (fun _ => "YAML") ""
      "foo.yaml" (Json.obj [("a", Json.num 1)])).2.1 (by decide),
   (writeFile_extension_dispatch (fun _ => "INDENTED-JSON") (fun _ => "YAML") ""
      "foo.txt" (Json.obj [("a", Json.num 1)])).2.2 (by decide) (by decide)⟩

theorem mem_lighthouseKeystoreEncode (p : KeystoreParams) (privKeys : List String) :
    ∀ key : String, key ∈ privKeys →
      ("validators/" ++ ("0x" ++ p.pubHexOf key) ++ "/voting-keystore.json",
        FileContent.jsonDoc
          (Json.obj (keystoreItem (p.cryptoOf key) (p.uuidOf key) (p.pubHexOf key))))
        ∈ lighthouseKeystoreEncode p privKeys ∧
      ("secrets/" ++ ("0x" ++ p.pubHexOf key), FileContent.text keystoreSecret)
        ∈ lighthouseKeystoreEncode p privKeys := by
  induction privKeys with
  | nil => intro key hkey; cases hkey
  | cons hd rest ih =>
    intro key hkey
    have hstep : lighthouseKeystoreEncode p (hd :: rest)
        = encodeOneKey p hd ++ lighthouseKeystoreEncode p rest := rfl
    rcases List.mem_cons.mp hkey with h | h
    · subst h
      rw [hstep]
      exact ⟨List.mem_append_left _ (by simp [encodeOneKey]),
             List.mem_append_left _ (by simp [encodeOneKey])⟩
    · obtain ⟨h1, h2⟩ := ih key h
      rw [hstep]
      exact ⟨List.mem_append_right _ h1, List.mem_append_right _ h2⟩

theorem length_lighthouseKeystoreEncode (p : KeystoreParams) (privKeys : List String) :
    (lighthouseKeystoreEncode p privKeys).length = 2 * privKeys.length := by
  induction privKeys with
  | nil => rfl
  | cons hd rest ih =>
    show (encodeOneKey p hd ++ lighthouseKeystoreEncode p rest).length
        = 2 * (hd :: rest).length
    rw [List.length_append, ih, List.length_cons]
    show 2 + 2 * rest.length = 2 * (rest.length + 1)
    omega

/-- C5 counterexample: the keystore document assembled by
`lighthouseKeystore.Encode` stores the generated random identifier
under the top-level key `uuid`, not `id` — its key set is exactly
`crypto, uuid, pubkey, version, description` and a lookup of `id`
fails. -/
theorem keystoreItem_has_no_id_field :
    lookupKey (keystoreItem Json.null "some-generated-identifier" "abcd") "id" = none ∧
    (keystoreItem Json.null "some-generated-identifier" "abcd").map Prod.fst
      = ["crypto", "uuid", "pubkey", "version", "description"] :=
  ⟨rfl, rfl⟩

/-- C5 (amended): for each derived validator key the encoder writes
exactly two files — `validators/<0xpubkey>/voting-keystore.json` and
`secrets/<0xpubkey>` containing the fixed plaintext password — and the
keystore document has top-level fields `crypto` (the encrypted secret),
`uuid` (the generated random identifier), `pubkey` (the hex public key
without the `0x` tag), `version` equal to 4, and `description` equal to
the empty string. -/
theorem lighthouseKeystoreEncode_files (p : KeystoreParams) (privKeys : List String) :
    ((lighthouseKeystoreEncode p privKeys).length = 2 * privKeys.length) ∧
    (∀ key : String, key ∈ privKeys →
      ("validators/" ++ ("0x" ++ p.pubHexOf key) ++ "/voting-keystore.json",
        FileContent.jsonDoc
          (Json.obj (keystoreItem (p.cryptoOf key) (p.uuidOf key) (p.pubHexOf key))))
        ∈ lighthouseKeystoreEncode p privKeys ∧
      ("secrets/" ++ ("0x" ++ p.pubHexOf key), FileContent.text keystoreSecret)
        ∈ lighthouseKeystoreEncode p privKeys) ∧
    (keystoreSecret = "secret") ∧
    (∀ (c : Json) (ident pub : String),
      lookupKey (keystoreItem c ident pub) "crypto" = some c ∧
      lookupKey (keystoreItem c ident pub) "uuid" = some (Json.str ident) ∧
      lookupKey (keystoreItem c ident pub) "pubkey" = some (Json.str pub) ∧
      lookupKey (keystoreItem c ident pub) "version" = some (Json.num 4) ∧
      lookupKey (keystoreItem c ident pub) "description" = some (Json.str "")) :=
  ⟨length_lighthouseKeystoreEncode p privKeys,
   mem_lighthouseKeystoreEncode p privKeys,
   rfl,
   fun _ _ _ => ⟨rfl, rfl, rfl, rfl, rfl⟩⟩

theorem lighthouseKeystoreEncode_files_witness :
    ("validators/0xab/voting-keystore.json",
      FileContent.jsonDoc (Json.obj (keystoreItem Json.null "u1" "ab")))
      ∈ lighthouseKeystoreEncode
          { cryptoOf := fun _ => Json.null, uuidOf := fun _ => "u1",
            pubHexOf := fun _ => "ab" } ["k1"] ∧
    ("secrets/0xab", FileContent.text keystoreSecret)
      ∈ lighthouseKeystoreEncode
          { cryptoOf := fun _ => Json.null, uuidOf := fun _ => "u1",
            pubHexOf := fun _ => "ab" } ["k1"] := by
  have h := (lighthouseKeystoreEncode_files
      { cryptoOf := fun _ => Json.null, uuidOf := fun _ => "u1",
        pubHexOf := fun _ => "ab" } ["k1"]).2.1 "k1" (by simp)
  exact ⟨h.1, h.2⟩

theorem lookupKey_mergeMap_replace (dst src : JObj) (q : String) (sv : Json)
    (hnodup : (src.map Prod.fst).Nodup) (hsrc : lookupKey src q = some sv)
    (hobj : ∀ m : JObj, sv ≠ Json.obj m) :
    lookupKey (mergeMap dst src) q = some sv := by
  rw [lookupKey_mergeMap src dst q hnodup, hsrc]
  cases sv
  case obj m => exact absurd rfl (hobj m)
  all_goals
    rcases lookupKey dst q with _ | dv
    case none => rfl
    case some => cases dv <;> rfl

theorem lookupKey_mergeMap_src_obj (dst src : JObj) (q : String) (sm : JObj)
    (hnodup : (src.map Prod.fst).Nodup) (hsrc : lookupKey src q = some (Json.obj sm)) :
    (∃ dm : JObj, lookupKey dst q = some (Json.obj dm) ∧
        lookupKey (mergeMap dst src) q = some (Json.obj (mergeMap dm sm))) ∨
    lookupKey (mergeMap dst src) q = some (Json.obj sm) := by
  rw [lookupKey_mergeMap src dst q hnodup, hsrc]
  rcases hdq : lookupKey dst q with _ | dv
  · right; rfl
  · cases dv
    case obj dm => left; exact ⟨dm, rfl, rfl⟩
    all_goals (right; rfl)

theorem getPath_patchedRollup (rm : JObj) (t : Nat) (l1h l2h : String) :
    getPath (Json.obj (mergeMap rm (rollupOverride t l1h l2h))) ["genesis", "l2_time"]
      = some (Json.num t) ∧
    getPath (Json.obj (mergeMap rm (rollupOverride t l1h l2h))) ["genesis", "l2", "hash"]
      = some (Json.str l2h) := by
  have hnodup : ((rollupOverride t l1h l2h).map Prod.fst).Nodup := by
    simp [rollupOverride]
  have hgen : lookupKey (rollupOverride t l1h l2h) "genesis"
      = some (Json.obj [("l2_time", Json.num t),
          ("l1", Json.obj [("hash", Json.str l1h), ("number", Json.num 0)]),
          ("l2", Json.obj [("hash", Json.str l2h), ("number", Json.num 0)])]) := rfl
  rcases lookupKey_mergeMap_src_obj rm (rollupOverride t l1h l2h) "genesis" _ hnodup hgen
    with ⟨dm, _, hres⟩ | hres
  · have hlt : lookupKey (mergeMap dm
        [("l2_time", Json.num t),
         ("l1", Json.obj [("hash", Json.str l1h), ("number", Json.num 0)]),
         ("l2", Json.obj [("hash", Json.str l2h), ("number", Json.num 0)])]) "l2_time"
        = some (Json.num t) :=
      lookupKey_mergeMap_replace _ _ _ _ (by simp) rfl (fun m h => Json.noConfusion h)
    rcases lookupKey_mergeMap_src_obj dm
        [("l2_time", Json.num t),
         ("l1", Json.obj [("hash", Json.str l1h), ("number", Json.num 0)]),
         ("l2", Json.obj [("hash", Json.str l2h), ("number", Json.num 0)])]
        "l2" [("hash", Json.str l2h), ("number", Json.num 0)] (by simp) rfl
      with ⟨dm2, _, hres2⟩ | hres2
    · have hh : lookupKey (mergeMap dm2 [("hash", Json.str l2h), ("number", Json.num 0)])
          "hash" = some (Json.str l2h) :=
        lookupKey_mergeMap_replace _ _ _ _ (by simp) rfl (fun m h => Json.noConfusion h)
      exact ⟨by simp [getPath, hres, hlt], by simp [getPath, hres, hres2, hh]⟩
    · exact ⟨by simp [getPath, hres, hlt], by simp [getPath, hres, hres2, lookupKey]⟩
  · exact ⟨by simp [getPath, hres, lookupKey], by simp [getPath, hres, lookupKey]⟩

/-- C1: in `Build`, the L2 timestamp is `genesisTime + 2`; the rollup
configuration written to `rollup.json` carries `genesis.l2_time` equal
to that timestamp and `genesis.l2.hash` equal to the hash recomputed
from the timestamp-patched L2 genesis document; whenever the template's
(string) timestamp differs from the patched one and the hash primitive
is timestamp-sensitive, that hash differs from the hash of the
unpatched embedded template. -/
theorem buildL2_rollup_fields (genesisTime : Nat) (gm rm : JObj)
    (hashOfGenesis : Json → String) (l1HashStr : String) :
    buildL2Artifacts genesisTime (some (Json.obj gm)) (some (Json.obj rm))
        hashOfGenesis l1HashStr
      = some (patchedOpGenesis genesisTime gm,
              patchedRollup genesisTime rm hashOfGenesis l1HashStr gm) ∧
    getPath (patchedOpGenesis genesisTime gm) ["timestamp"]
      = some (Json.str (hexU64 (genesisTime + 2))) ∧
    getPath (patchedRollup genesisTime rm hashOfGenesis l1HashStr gm)
        ["genesis", "l2_time"] = some (Json.num (genesisTime + 2)) ∧
    getPath (patchedRollup genesisTime rm hashOfGenesis l1HashStr gm)
        ["genesis", "l2", "hash"]
      = some (Json.str (hashOfGenesis (patchedOpGenesis genesisTime gm))) ∧
    (∀ s0 : String,
      lookupKey gm "timestamp" = some (Json.str s0) →
      s0 ≠ hexU64 (genesisTime + 2) →
      (∀ (m1 m2 : JObj) (s1 s2 : String),
        lookupKey m1 "timestamp" = some (Json.str s1) →
        lookupKey m2 "timestamp" = some (Json.str s2) →
        s1 ≠ s2 →
        hashOfGenesis (Json.obj m1) ≠ hashOfGenesis (Json.obj m2)) →
      hashOfGenesis (patchedOpGenesis genesisTime gm) ≠ hashOfGenesis (Json.obj gm)) := by
  have hts : lookupKey (mergeMap gm [("timestamp", Json.str (hexU64 (genesisTime + 2)))])
      "timestamp" = some (Json.str (hexU64 (genesisTime + 2))) :=
    lookupKey_mergeMap_replace _ _ _ _ (by simp) rfl (fun m h => Json.noConfusion h)
  refine ⟨rfl, ?_, (getPath_patchedRollup rm (genesisTime + 2) l1HashStr _).1,
    (getPath_patchedRollup rm (genesisTime + 2) l1HashStr _).2, ?_⟩
  · simp [patchedOpGenesis, getPath, hts]
  · intro s0 hs0 hne hsens
    exact hsens _ gm _ s0 hts hs0 (Ne.symm hne)

theorem buildL2_rollup_fields_witness :
    buildL2Artifacts 0 (some (Json.obj [("timestamp", Json.str "0x0")]))
        (some (Json.obj [])) witnessHashFn "0xL1"
      = some (patchedOpGenesis 0 [("timestamp", Json.str "0x0")],
              patchedRollup 0 [] witnessHashFn "0xL1" [("timestamp", Json.str "0x0")]) ∧
    getPath (patchedRollup 0 [] witnessHashFn "0xL1" [("timestamp", Json.str "0x0")])
        ["genesis", "l2_time"] = some (Json.num 2) ∧
    getPath (patchedRollup 0 [] witnessHashFn "0xL1" [("timestamp", Json.str "0x0")])
        ["genesis", "l2", "hash"]
      = some (Json.str (witnessHashFn (patchedOpGenesis 0 [("timestamp", Json.str "0x0")]))) ∧
    witnessHashFn (patchedOpGenesis 0 [("timestamp", Json.str "0x0")])
      ≠ witnessHashFn (Json.obj [("timestamp", Json.str "0x0")]) := by
  have h := buildL2_rollup_fields 0 [("timestamp", Json.str "0x0")] [] witnessHashFn "0xL1"
  refine ⟨h.1, h.2.2.1, h.2.2.2.1, h.2.2.2.2 "0x0" rfl (by decide) ?_⟩
  intro m1 m2 s1 s2 hm1 hm2 hne
  simpa [witnessHashFn, hm1, hm2] using hne

end BuilderPlayground
